import Mathlib

set_option maxRecDepth 100000

/-!
Verification of the PN532 NFC driver (pxt-calliope-grove-pn532).

The definitions below are a shallow embedding of the TypeScript sources
`src/grove-pn532.ts` (variant A, Mifare Classic, 16-byte blocks) and the
unnamed near-duplicate variant (variant B, Mifare Ultralight, 4-byte pages).
Byte buffers are modelled as `List Nat`; the MakeCode primitive
`setNumber(UInt8LE, v)` truncates values modulo 256, which is modelled by
`wireBytes`.  Strings handled by the text codecs are modelled as lists of
character codes.
-/

/-- Embeds `concatNumArr` from grove-pn532.ts (lines 168-181): the code copies
`firstArr` into a fresh array and appends `secondArr` behind it, which is
exactly list append on dense arrays. -/
def concatNumArr (firstArr secondArr : List Nat) : List Nat :=
  firstArr ++ secondArr

/-- Embeds `makeCommand` from grove-pn532.ts (lines 303-319).  Note that the
code computes `0x100 - (x % 0x100)`, which is 256 (not 0) when `x` is a
multiple of 256; this value is kept as-is, exactly as the source keeps it in
its number array. -/
def makeCommand (command : List Nat) : List Nat :=
  concatNumArr
    (concatNumArr
      [0x00, 0x00, 0xFF, command.length, 0x100 - (command.length % 0x100)]
      command)
    [0x100 - (command.sum % 0x100), 0x00]

/-- Models the byte truncation performed by `writeBuffer` (lines 72-79): each
array element is staged into a buffer with `setNumber(NumberFormat.UInt8LE)`,
so the bytes that reach the bus are the values modulo 256. -/
def wireBytes (arr : List Nat) : List Nat :=
  arr.map (fun b => b % 256)

/-- Embeds `readFrame` from grove-pn532.ts (lines 81-99).  The code performs
`pins.i2cReadBuffer(ADDRESS, 64)` (a 64-byte read, zero-padded when the device
staged fewer bytes), takes `len = buffer[4]` and slices `len + 8` bytes. -/
def readFrame (staged : List Nat) : List Nat :=
  ((List.range 64).map (fun i => staged.getD i 0)).take
    (((List.range 64).map (fun i => staged.getD i 0)).getD 4 0 + 8)

/-- Models the transport convention visible in the source: every buffer read
from the device starts with the RDY status byte 0x01 (compare `ACK_FRAME =
[0x01, 0x00, 0x00, 0xFF, 0x00, 0xFF, 0x00]` and the `outputFrame[0] != 0x01`
check in `readFrame`).  A frame staged by the device is therefore read back
with a leading 0x01. -/
def deviceStaged (frame : List Nat) : List Nat :=
  0x01 :: frame

/-- The payload region of a decoded frame: after RDY(1) + preamble(2) +
start marker(1) + length(1) + length checksum(1) come `length` payload bytes
(the length byte sits at offset 4 of the decoded frame). -/
def framePayload (f : List Nat) : List Nat :=
  (f.drop 6).take (f.getD 4 0)

/-- Modelled from the spec: the length-checksum formula of section 3,
`(0x100 - length) mod 0x100`. -/
def specLengthChecksum (len : Nat) : Nat :=
  (0x100 - len % 0x100) % 0x100

/-- Modelled from the spec: the data-checksum formula of section 3,
`(0x100 - sum(payload) mod 0x100) mod 0x100`. -/
def specDataChecksum (s : Nat) : Nat :=
  (0x100 - s % 0x100) % 0x100

/-- Modelled from the spec: a frame is well-formed iff both checksums match on
decode (section 3).  On a decoded frame the length byte is at offset 4, its
checksum at offset 5, and the data checksum right behind the payload. -/
def specWellFormed (f : List Nat) : Prop :=
  (f.getD 4 0 + f.getD 5 0) % 256 = 0 ∧
  ((framePayload f).sum + f.getD (f.getD 4 0 + 6) 0) % 256 = 0

/-! ## Variant A (grove-pn532.ts): session, block transactions, text codec -/

/-- Embeds the constant `targetKey` (line 19): the fixed 6-byte default key A. -/
def targetKey : List Nat := [0xFF, 0xFF, 0xFF, 0xFF, 0xFF, 0xFF]

/-- Embeds `dataBlocks` (line 24): the predeclared ordered list of unit
addresses holding text data. -/
def dataBlocks : List Nat := [5, 6, 8, 9, 10, 12, 13, 14, 16, 17, 18, 20, 21, 22]

/-- Access `dataBlocks[i]` as the code does.  MakeCode returns `undefined` for
an out-of-range read; once that value passes through `setNumber(UInt8LE)` the
address byte placed on the wire is 0, which this model returns directly. -/
def dataBlocksGet (i : Nat) : Nat := dataBlocks.getD i 0

/-- One InDataExchange command issued to the chip: the selected target byte,
the Mifare command code (0x60 authenticate, 0x30 read, 0xA0 write-16,
0xA2 write-4), the addressed memory unit and the accompanying data bytes. -/
structure DExchange where
  target : Nat
  code : Nat
  address : Nat
  data : List Nat
deriving DecidableEq, Repr

/-- The authentication command built by `authenticate` (lines 321-339):
`[0xD4, 0x40, targetID, 0x60, address] ++ targetKey ++ targetNFCID`, here
recorded as a `DExchange`. -/
def authCmd (tid addr : Nat) (uid : List Nat) : DExchange :=
  ⟨tid, 0x60, addr, concatNumArr targetKey uid⟩

/-- Embeds the success computation of `authenticate` (line 336): the status
byte at offset 7 of the response frame must be 0x00. -/
def authSuccess (authResp : List Nat) : Bool :=
  authResp.getD 7 0 == 0

/-- The InDataExchange commands issued by `read16Bytes` (lines 106-130), as a
function of the device response to the authentication exchange.  The code
computes the authentication result and then proceeds unconditionally; the read
command hardcodes target 0x01 (line 113). -/
def read16BytesTrace (tid addr : Nat) (uid authResp : List Nat) : List DExchange :=
  [authCmd tid addr uid, ⟨0x01, 0x30, addr, []⟩]

/-- The InDataExchange commands issued by `write16Bytes` (lines 138-160), as a
function of the device response to the authentication exchange.  As in the
source, the authentication result does not influence the write command. -/
def write16BytesTrace (tid addr : Nat) (uid authResp data : List Nat) : List DExchange :=
  [authCmd tid addr uid, ⟨tid, 0xA0, addr, data⟩]

/-- The commands of `read16Bytes` disregarding the authentication response. -/
def read16BytesCmds (tid : Nat) (uid : List Nat) (addr : Nat) : List DExchange :=
  [authCmd tid addr uid, ⟨0x01, 0x30, addr, []⟩]

/-- The commands of `write16Bytes` disregarding the authentication response. -/
def write16BytesCmds (tid : Nat) (uid data : List Nat) (addr : Nat) : List DExchange :=
  [authCmd tid addr uid, ⟨tid, 0xA0, addr, data⟩]

/-- An out-of-range `charCodeAt` yields NaN, which `setNumber(UInt8LE)` stores
as byte 0, so the byte taken from the message at position `k` is a plain
defaulted lookup. -/
def charBytesAt (message : List Nat) (k : Nat) : Nat :=
  message.getD k 0

/-- The truncation step of `writeText` (lines 397-403): messages longer than
`16 * dataBlocks.length = 224` are cut to 224 characters. -/
def truncatedMessage (msg : List Nat) : List Nat :=
  if msg.length > 224 then msg.take 224 else msg

/-- `blocksNeeded = message.length / 16 + 1` is computed in MakeCode float
arithmetic, and the loops run over the integers `i < blocksNeeded`, that is
over `i` with `16 * i < len + 16`; there are `(len + 31) / 16` such
integers. -/
def blocksNeededCount (len : Nat) : Nat :=
  (len + 31) / 16

/-- The per-block length of `writeText`/`readText`: the initialisation
`len = message.length - (blocksNeeded - 1) * 16` is exactly 0 in float
arithmetic (because `(len/16)*16 = len` for doubles), and is then overridden
to 16 whenever `i < blocksNeeded - 1 = len/16`, i.e. whenever `16*i < len`. -/
def blockLen (len i : Nat) : Nat :=
  if 16 * i < len then 16 else 0

/-- The 16-byte block assembled by `writeText` for block index `i`
(lines 409-419), already truncated to wire bytes. -/
def blockData (message : List Nat) (i : Nat) : List Nat :=
  (List.range 16).map
    (fun j => if j < blockLen message.length i then charBytesAt message (16 * i + j) % 256 else 0)

/-- The header block of `writeText` (lines 423-424): the message length in
byte 0, the rest zero. -/
def headerBlock (len : Nat) : List Nat :=
  len % 256 :: List.replicate 15 0

/-- The sequence of `(address, 16-byte data)` pairs passed to `write16Bytes`
by `writeText` (lines 378-438) when a target is present: the header block at
0x04 followed by one block per loop iteration at `dataBlocks[i]`. -/
def writeTextWrites (msg : List Nat) : List (Nat × List Nat) :=
  (0x04, headerBlock (truncatedMessage msg).length) ::
    (List.range (blocksNeededCount (truncatedMessage msg).length)).map
      (fun i => (dataBlocksGet i, blockData (truncatedMessage msg) i))

/-- The card contents after a sequence of block writes: the last write to an
address wins, untouched addresses keep their previous contents.  This is the
faithfully-returning device of the round-trip claim. -/
def cardAfterWrites (writes : List (Nat × List Nat)) (card0 : Nat → List Nat) :
    Nat → List Nat :=
  fun a => writes.foldl (fun acc w => if w.1 = a then w.2 else acc) (card0 a)

/-- Device model: the staged InDataExchange response for a block read, a
normal information frame `D5 41 00` followed by the 16 data bytes, wrapped
with preamble, length bytes, checksums and the RDY prefix. -/
def respStaged (d : List Nat) : List Nat :=
  deviceStaged
    ([0x00, 0x00, 0xFF, d.length + 3, (256 - (d.length + 3) % 256) % 256,
      0xD5, 0x41, 0x00] ++ d ++
      [(256 - (0xD5 + 0x41 + 0x00 + d.sum) % 256) % 256, 0x00])

/-- What `read16Bytes` hands back to its caller: the frame decoded by
`readFrame` from the staged device response for the addressed block. -/
def read16BytesFrame (card : Nat → List Nat) (address : Nat) : List Nat :=
  readFrame (respStaged (card address))

/-- Embeds the read loop of `readText` (lines 450-479): the message length is
byte 9 of the header frame read from 0x04, then for every loop index `j` the
code slices 16 data bytes starting at offset 9 of the frame for
`dataBlocks[j]` and appends the first `len` of them. -/
def readTextResult (card : Nat → List Nat) : List Nat :=
  ((List.range (blocksNeededCount ((read16BytesFrame card 0x04).getD 9 0))).map
    (fun j =>
      (List.range (blockLen ((read16BytesFrame card 0x04).getD 9 0) j)).map
        (fun i => (((read16BytesFrame card (dataBlocksGet j)).drop 9).take 16).getD i 0))).flatten

/-- The message padded with zero bytes up to the next multiple of 16. -/
def padTo16 (m : List Nat) : List Nat :=
  m ++ List.replicate ((16 - m.length % 16) % 16) 0

/-- All InDataExchange commands issued by `writeText` when a target is
present: each block write goes through `write16Bytes`, i.e. an authentication
exchange followed by the 0xA0 write command. -/
def writeTextCmds (tid : Nat) (uid : List Nat) (msg : List Nat) : List DExchange :=
  (writeTextWrites msg).flatMap (fun w => write16BytesCmds tid uid w.2 w.1)

/-- All InDataExchange commands issued by `readText` when a target is present:
the header read at 0x04 followed by one `read16Bytes` per loop index. -/
def readTextCmds (tid : Nat) (uid : List Nat) (card : Nat → List Nat) : List DExchange :=
  read16BytesCmds tid uid 0x04 ++
    (List.range (blocksNeededCount ((read16BytesFrame card 0x04).getD 9 0))).flatMap
      (fun j => read16BytesCmds tid uid (dataBlocksGet j))

/-- `getNFCID` (lines 348-358) only runs target discovery (an
InListPassiveTarget frame); it issues no InDataExchange command at all. -/
def getNFCIDCmds : List DExchange := []

/-- The addresses targeted by write commands (codes 0xA0 and 0xA2) within a
command list. -/
def writeAddrsOf (cmds : List DExchange) : List Nat :=
  (cmds.filter (fun c => c.code == 0xA0 || c.code == 0xA2)).map (fun c => c.address)

/-! ## Session controller -/

/-- The process-wide session fields `targetID` and `targetNFCID`
(lines 16-18). -/
structure TargetState where
  targetID : Nat
  targetNFCID : List Nat
deriving DecidableEq, Repr

/-- The state installed by lines 258-259 of `findPassiveTarget`:
`targetID = 0`, `targetNFCID = [0, 0, 0, 0]`. -/
def resetState : TargetState := ⟨0, [0, 0, 0, 0]⟩

/-- The sentinel test of `findPassiveTarget` (line 274): start marker 0x01 at
offset 0 of the decoded response and target count 0x01 at offset 8. -/
def sentinelFound (resp : List Nat) : Bool :=
  resp.getD 0 0 == 1 && resp.getD 8 0 == 1

/-- The session state in force when the InListPassiveTarget command is issued:
the reset runs first, so the previous state is discarded unconditionally. -/
def findPassiveTargetPre (prev : TargetState) : TargetState := resetState

/-- Embeds `findPassiveTarget` (lines 257-301) as a state transformer over the
decoded discovery response: on the sentinel match the target id becomes 1 and
the UID is taken from offsets 14..17, otherwise the reset state remains. -/
def findPassiveTarget (prev : TargetState) (resp : List Nat) : TargetState :=
  if sentinelFound resp then
    ⟨1, [resp.getD 14 0, resp.getD 15 0, resp.getD 16 0, resp.getD 17 0]⟩
  else findPassiveTargetPre prev

/-- The digit table of `decToHex` (line 214). -/
def hexChars : List Char :=
  ['0', '1', '2', '3', '4', '5', '6', '7', '8', '9', 'A', 'B', 'C', 'D', 'E', 'F']

/-- The while loop of `decToHex` (lines 217-221) produces the base-16 digits
of `n`, most significant first.  `fuel` bounds the iteration count; `n` itself
is always enough fuel because the loop divides by 16 each round. -/
def hexDigitsAux : Nat → Nat → List Char
  | 0, _ => []
  | fuel + 1, n =>
    if n = 0 then [] else hexDigitsAux fuel (n / 16) ++ [hexChars.getD (n % 16) '0']

/-- Embeds `decToHex` (lines 209-228): 0 maps to "00", and a leading "0" is
prepended exactly when `decNr < 17` - including for 16, whose two loop digits
"10" become the three-character string "010". -/
def decToHex (decNr : Nat) : String :=
  if decNr = 0 then "00"
  else String.mk ((if decNr < 17 then ['0'] else []) ++ hexDigitsAux decNr decNr)

/-- Embeds `getNFCID` (lines 348-358): run discovery, then concatenate the hex
representation of the four UID bytes, or return the empty string when
`targetID` is 0. -/
def getNFCID (prev : TargetState) (resp : List Nat) : String :=
  if (findPassiveTarget prev resp).targetID ≠ 0 then
    ((findPassiveTarget prev resp).targetNFCID.map decToHex).foldl
      (fun acc s => acc ++ s) ""
  else ""

/-! ## Variant B (unnamed source file): 4-byte pages, NDEF records -/

/-- The single buffer write issued by `write4Bytes` (part_000 lines 134-171):
the InDataExchange command `[0xD4, 0x40, targetID, 0xA2, address] ++ data`
framed by `makeCommand` and truncated to wire bytes by `writeBuffer`. -/
def write4BytesFrame (tid : Nat) (data : List Nat) (address : Nat) : List Nat :=
  wireBytes (makeCommand (concatNumArr [0xD4, 0x40, tid, 0xA2, address] data))

/-- The buffer writes `write4Bytes` performs.  The `address > 0x28` guard
(lines 147-156) only emits diagnostics and has no return statement, so the
frame is written to the device unconditionally. -/
def write4BytesIssued (tid : Nat) (data : List Nat) (address : Nat) : List (List Nat) :=
  [write4BytesFrame tid data address]

/-- The `(address, 4-byte data)` pairs passed to `write4Bytes` by
`formatAsNdef` (part_000 lines 366-400) when a target is present: two fixed
pages at 0x04 and 0x05, then zero pages while `address < 0x28`
(addresses 0x06..0x27, 34 pages). -/
def formatWrites : List (Nat × List Nat) :=
  (0x04, [0x03, 0x04, 0xD8, 0x00]) :: (0x05, [0x00, 0x00, 0xFE, 0x00]) ::
    (List.range 34).map (fun k => (6 + k, [0x00, 0x00, 0x00, 0x00]))

/-- The maximum string length of `writeNDEFText` (part_000 line 445):
`((0x29 - 0x04) * 4) - 1 = 147`. -/
def ndefMaxStringLength : Nat := (0x29 - 0x04) * 4 - 1

/-- The byte stream written page-wise by the record loop of `writeNDEFText`:
the second language-code byte 0x65, the characters, the terminator 0xFE;
the defaulted lookup supplies the zero padding of the final page. -/
def ndefContentBytes (s : List Nat) : List Nat :=
  0x65 :: (s ++ [0xFE])

/-- The `(address, data)` pairs passed to `write4Bytes` for the NDEF record
itself (part_000 lines 452-486): two header pages at 0x04 and 0x05, then the
content stream four bytes at a time from address 0x06 on; the loop plus the
final flush write `ceil((len + 2) / 4) = (len + 5) / 4` content pages. -/
def ndefRecordWrites (s : List Nat) : List (Nat × List Nat) :=
  (0x04, [0x03, 0x07 + s.length, 0xD1, 0x01]) ::
  (0x05, [s.length + 0x03, 0x54, 0x02, 0x64]) ::
    (List.range ((s.length + 5) / 4)).map
      (fun p => (6 + p, (List.range 4).map (fun i => (ndefContentBytes s).getD (4 * p + i) 0)))

/-- The page writes performed by `writeNDEFText` (part_000 lines 420-496) when
a target is present: `formatAsNdef` runs first (line 440), and only then is
the string length compared against the maximum (line 446); an oversize string
returns before the record pages are written. -/
def writeNDEFTextWrites (s : List Nat) : List (Nat × List Nat) :=
  formatWrites ++ (if s.length > ndefMaxStringLength then [] else ndefRecordWrites s)

/- ### Generic helper lemmas -/

theorem map_range_getD (l : List Nat) (N : Nat) (h : l.length ≤ N) :
    (List.range N).map (fun i => l.getD i 0) = l ++ List.replicate (N - l.length) 0 := by
  induction l generalizing N with
  | nil =>
    have hz : (fun i => ([] : List Nat).getD i 0) = fun _ => 0 := by
      funext i
      simp [List.getD]
    rw [hz, List.map_const', List.length_range]
    simp
  | cons a t ih =>
    cases N with
    | zero => simp at h
    | succ M =>
      rw [List.range_succ_eq_map]
      simp only [List.map_cons, List.map_map]
      have : ((fun i => List.getD (a :: t) i 0) ∘ Nat.succ) = fun i => t.getD i 0 := by
        funext i
        simp [List.getD_cons_succ]
      rw [this, ih M (by simpa using h)]
      simp [List.getD_cons_zero]

theorem map_mod256_eq_self (l : List Nat) (h : ∀ b ∈ l, b < 256) :
    l.map (fun b => b % 256) = l := by
  induction l with
  | nil => rfl
  | cons a t ih =>
    have ha : a % 256 = a := Nat.mod_eq_of_lt (h a (by simp))
    have ht : t.map (fun b => b % 256) = t := ih (fun b hb => h b (by simp [hb]))
    simp only [List.map_cons]
    rw [ha, ht]

/- ### C2: the encoded read-block-4 frame -/

/-- C2 counterexample: the encoder does not produce the frame claimed by the
spec; the data checksum of `[D4 40 01 30 04]` is not 0xC7. -/
theorem makeCommand_readBlock4_claimed_frame_false :
    ¬ makeCommand [0xD4, 0x40, 0x01, 0x30, 0x04] =
      [0x00, 0x00, 0xFF, 0x05, 0xFB, 0xD4, 0x40, 0x01, 0x30, 0x04, 0xC7, 0x00] := by
  decide

/-- C2 (amended): encoding the payload `[0xD4, 0x40, 0x01, 0x30, 0x04]`
produces the frame `00 00 FF 05 FB D4 40 01 30 04 B7 00`: the length checksum
is 0xFB and the data checksum is 0xB7 (256 - (0x149 mod 256)). -/
theorem makeCommand_readBlock4_frame :
    makeCommand [0xD4, 0x40, 0x01, 0x30, 0x04] =
      [0x00, 0x00, 0xFF, 0x05, 0xFB, 0xD4, 0x40, 0x01, 0x30, 0x04, 0xB7, 0x00] := by
  decide

/- ### C3: checksum arithmetic of the encoder -/

/-- C3 counterexample: on the empty payload the emitted length checksum and
data checksum are both 256, not the value 0 demanded by the modulo formula of
the spec, and 256 is not a single byte. -/
theorem makeCommand_empty_checksum_not_mod256 :
    (makeCommand []).getD 4 0 = 256 ∧
    specLengthChecksum (List.length ([] : List Nat)) = 0 ∧
    (makeCommand []).getD (5 + List.length ([] : List Nat)) 0 = 256 ∧
    ¬ (makeCommand []).getD 4 0 ≤ 255 := by
  decide

/-- C3 (amended): for every payload the encoder emits
`length checksum = 0x100 - (length mod 0x100)` and
`data checksum = 0x100 - (sum mod 0x100)`.  Both values lie in 1..256 and are
congruent modulo 256 to the spec formulas; they equal the spec formulas
exactly when the reduced length (resp. byte sum) is not a multiple of 256,
and degenerate to 256 instead of 0 otherwise. -/
theorem makeCommand_checksum_values (p : List Nat) :
    (makeCommand p).getD 4 0 = 0x100 - p.length % 0x100 ∧
    (makeCommand p).getD (5 + p.length) 0 = 0x100 - p.sum % 0x100 ∧
    1 ≤ (makeCommand p).getD 4 0 ∧ (makeCommand p).getD 4 0 ≤ 256 ∧
    1 ≤ (makeCommand p).getD (5 + p.length) 0 ∧
    (makeCommand p).getD (5 + p.length) 0 ≤ 256 ∧
    (makeCommand p).getD 4 0 % 256 = specLengthChecksum p.length ∧
    (makeCommand p).getD (5 + p.length) 0 % 256 = specDataChecksum p.sum := by
  have h4 : (makeCommand p).getD 4 0 = 0x100 - p.length % 0x100 := by
    simp [makeCommand, concatNumArr, List.getD_append, List.getD_cons_succ,
      List.getD_cons_zero]
  have hd : (makeCommand p).getD (5 + p.length) 0 = 0x100 - p.sum % 0x100 := by
    have hsplit : makeCommand p =
        ([0x00, 0x00, 0xFF, p.length, 0x100 - p.length % 0x100] ++ p) ++
          [0x100 - p.sum % 0x100, 0x00] := by
      simp [makeCommand, concatNumArr]
    rw [hsplit, List.getD_append_right _ _ _ _ (by simp; omega)]
    have hidx : 5 + p.length -
        ([0x00, 0x00, 0xFF, p.length, 0x100 - p.length % 0x100] ++ p).length = 0 := by
      simp; omega
    rw [hidx]
    simp
  refine ⟨h4, hd, ?_, ?_, ?_, ?_, ?_, ?_⟩ <;>
    simp only [h4, hd, specLengthChecksum, specDataChecksum] <;> omega

/- ### C1: frame encode/decode round trip -/

/-- C1 (amended): for every payload of length at most 56 whose entries are
bytes, reading back the staged encoded frame through `readFrame` returns
exactly the RDY-prefixed frame, the payload region of the decoded frame is the
original payload, and both checksums validate modulo 256.  (The bound 56 is
forced by the 64-byte raw read in `readFrame`: a frame with RDY byte occupies
`length + 8` bytes.) -/
theorem frame_encode_decode_roundtrip (p : List Nat) (hlen : p.length ≤ 56)
    (hbytes : ∀ b ∈ p, b < 256) :
    readFrame (deviceStaged (wireBytes (makeCommand p))) =
      deviceStaged (wireBytes (makeCommand p)) ∧
    framePayload (readFrame (deviceStaged (wireBytes (makeCommand p)))) = p ∧
    specWellFormed (readFrame (deviceStaged (wireBytes (makeCommand p)))) := by
  have hL : p.length % 256 = p.length := Nat.mod_eq_of_lt (by omega)
  have hstaged : deviceStaged (wireBytes (makeCommand p)) =
      1 :: 0 :: 0 :: 255 :: p.length :: ((256 - p.length % 256) % 256) ::
        (p ++ [(256 - p.sum % 256) % 256, 0]) := by
    simp [deviceStaged, wireBytes, makeCommand, concatNumArr,
      map_mod256_eq_self p hbytes, hL]
  have hslen :
      (1 :: 0 :: 0 :: 255 :: p.length :: ((256 - p.length % 256) % 256) ::
        (p ++ [(256 - p.sum % 256) % 256, 0])).length = p.length + 8 := by
    simp
  have hget4 :
      (1 :: 0 :: 0 :: 255 :: p.length :: ((256 - p.length % 256) % 256) ::
        (p ++ [(256 - p.sum % 256) % 256, 0])).getD 4 0 = p.length := by
    simp [List.getD_cons_succ, List.getD_cons_zero]
  have hdecoded : readFrame (deviceStaged (wireBytes (makeCommand p))) =
      deviceStaged (wireBytes (makeCommand p)) := by
    rw [readFrame, hstaged,
      map_range_getD _ 64 (by rw [hslen]; omega), hslen,
      List.getD_append _ _ _ _ (by rw [hslen]; omega), hget4,
      ← hslen, List.take_left]
  refine ⟨hdecoded, ?_, ?_⟩
  · rw [hdecoded, hstaged, framePayload, hget4]
    simp only [List.drop_succ_cons, List.drop_zero]
    exact List.take_left' rfl
  · rw [hdecoded, hstaged]
    constructor
    · rw [hget4]
      have hget5 :
          (1 :: 0 :: 0 :: 255 :: p.length :: ((256 - p.length % 256) % 256) ::
            (p ++ [(256 - p.sum % 256) % 256, 0])).getD 5 0 =
            (256 - p.length % 256) % 256 := by
        simp [List.getD_cons_succ, List.getD_cons_zero]
      rw [hget5]
      omega
    · rw [framePayload, hget4]
      have hpay :
          ((1 :: 0 :: 0 :: 255 :: p.length :: ((256 - p.length % 256) % 256) ::
            (p ++ [(256 - p.sum % 256) % 256, 0])).drop 6).take p.length = p := by
        simp only [List.drop_succ_cons, List.drop_zero]
        exact List.take_left' rfl
      rw [hpay]
      have hsplit :
          (1 :: 0 :: 0 :: 255 :: p.length :: ((256 - p.length % 256) % 256) ::
            (p ++ [(256 - p.sum % 256) % 256, 0])) =
          (1 :: 0 :: 0 :: 255 :: p.length :: ((256 - p.length % 256) % 256) :: p) ++
            [(256 - p.sum % 256) % 256, 0] := by
        simp
      rw [hsplit, List.getD_append_right _ _ _ _ (by simp)]
      have hidx : p.length + 6 -
          (1 :: 0 :: 0 :: 255 :: p.length :: ((256 - p.length % 256) % 256) ::
            p).length = 0 := by
        simp
      rw [hidx]
      simp only [List.getD_cons_zero]
      omega

/-- C1 witness: the round-trip theorem instantiated at the concrete read-block
payload `[0xD4, 0x40, 0x01, 0x30, 0x04]`. -/
theorem frame_encode_decode_roundtrip_witness :
    (([0xD4, 0x40, 0x01, 0x30, 0x04] : List Nat).length ≤ 56 ∧
      (∀ b ∈ ([0xD4, 0x40, 0x01, 0x30, 0x04] : List Nat), b < 256)) ∧
    (readFrame (deviceStaged (wireBytes (makeCommand [0xD4, 0x40, 0x01, 0x30, 0x04]))) =
      deviceStaged (wireBytes (makeCommand [0xD4, 0x40, 0x01, 0x30, 0x04])) ∧
    framePayload
      (readFrame (deviceStaged (wireBytes (makeCommand [0xD4, 0x40, 0x01, 0x30, 0x04])))) =
      [0xD4, 0x40, 0x01, 0x30, 0x04] ∧
    specWellFormed
      (readFrame (deviceStaged (wireBytes (makeCommand [0xD4, 0x40, 0x01, 0x30, 0x04]))))) :=
  ⟨⟨by decide, by decide⟩,
    frame_encode_decode_roundtrip [0xD4, 0x40, 0x01, 0x30, 0x04] (by decide) (by decide)⟩

/-- C1 counterexample: a payload of length 59 is within the claimed range
0..255, but decoding the staged encoded frame does not recover it (the 64-byte
raw read of `readFrame` truncates the frame), so the claimed round trip fails
below length 255. -/
theorem frame_roundtrip_fails_beyond_64 :
    (List.replicate 58 0 ++ [1] : List Nat).length ≤ 255 ∧
    ¬ (framePayload
        (readFrame (deviceStaged (wireBytes (makeCommand (List.replicate 58 0 ++ [1]))))) =
          List.replicate 58 0 ++ [1] ∧
      specWellFormed
        (readFrame (deviceStaged (wireBytes (makeCommand (List.replicate 58 0 ++ [1])))))) := by
  have h : ¬ framePayload
      (readFrame (deviceStaged (wireBytes (makeCommand (List.replicate 58 0 ++ [1]))))) =
        List.replicate 58 0 ++ [1] := by decide
  exact ⟨by decide, fun hc => h hc.1⟩

/- ### C8: authentication result does not gate the block transactions -/

/-- C8: the InDataExchange commands issued by `read16Bytes` and `write16Bytes`
are identical whether the authentication exchange reported success or failure:
the computed boolean never gates the subsequent read or write command. -/
theorem auth_result_does_not_gate_io (tid addr : Nat) (uid r1 r2 data : List Nat)
    (h1 : authSuccess r1 = true) (h2 : authSuccess r2 = false) :
    read16BytesTrace tid addr uid r1 = read16BytesTrace tid addr uid r2 ∧
    write16BytesTrace tid addr uid r1 data = write16BytesTrace tid addr uid r2 data :=
  ⟨rfl, rfl⟩

/-- C8 witness: a succeeding and a failing authentication response produce the
same command traces at a concrete block address. -/
theorem auth_result_does_not_gate_io_witness :
    (authSuccess (List.replicate 8 0) = true ∧
      authSuccess [0, 0, 0, 0, 0, 0, 0, 5] = false) ∧
    (read16BytesTrace 1 6 [1, 2, 3, 4] (List.replicate 8 0) =
      read16BytesTrace 1 6 [1, 2, 3, 4] [0, 0, 0, 0, 0, 0, 0, 5] ∧
    write16BytesTrace 1 6 [1, 2, 3, 4] (List.replicate 8 0) (List.replicate 16 0) =
      write16BytesTrace 1 6 [1, 2, 3, 4] [0, 0, 0, 0, 0, 0, 0, 5] (List.replicate 16 0)) :=
  ⟨⟨by decide, by decide⟩,
    auth_result_does_not_gate_io 1 6 [1, 2, 3, 4] (List.replicate 8 0)
      [0, 0, 0, 0, 0, 0, 0, 5] (List.replicate 16 0) (by decide) (by decide)⟩

/- ### C9: discovery reset and idempotence -/

/-- C9: `findPassiveTarget` installs `targetID = 0` and a zero UID before the
discovery command is issued, leaves exactly that state whenever the response
lacks either sentinel byte, and therefore two consecutive no-target calls both
end in the reset state. -/
theorem findPassiveTarget_reset_and_idempotent (prev : TargetState) (r1 r2 : List Nat)
    (h1 : sentinelFound r1 = false) (h2 : sentinelFound r2 = false) :
    findPassiveTargetPre prev = resetState ∧
    findPassiveTarget prev r1 = resetState ∧
    findPassiveTarget (findPassiveTarget prev r1) r2 = resetState ∧
    resetState.targetID = 0 ∧ resetState.targetNFCID = [0, 0, 0, 0] := by
  refine ⟨rfl, ?_, ?_, rfl, rfl⟩ <;>
    simp [findPassiveTarget, findPassiveTargetPre, h1, h2]

/-- C9 witness: two concrete no-target responses starting from a non-reset
session state. -/
theorem findPassiveTarget_reset_and_idempotent_witness :
    (sentinelFound [] = false ∧
      sentinelFound [0, 0, 0, 0, 0, 0, 0, 0, 0] = false) ∧
    (findPassiveTargetPre ⟨7, [9, 9, 9, 9]⟩ = resetState ∧
    findPassiveTarget ⟨7, [9, 9, 9, 9]⟩ [] = resetState ∧
    findPassiveTarget (findPassiveTarget ⟨7, [9, 9, 9, 9]⟩ [])
      [0, 0, 0, 0, 0, 0, 0, 0, 0] = resetState ∧
    resetState.targetID = 0 ∧ resetState.targetNFCID = [0, 0, 0, 0]) :=
  ⟨⟨by decide, by decide⟩,
    findPassiveTarget_reset_and_idempotent ⟨7, [9, 9, 9, 9]⟩ []
      [0, 0, 0, 0, 0, 0, 0, 0, 0] (by decide) (by decide)⟩

/- ### C5: oversize NDEF write still formats the card -/

/-- C5 counterexample: a string one character over the maximum performs 36
page writes, not zero. -/
theorem writeNDEFText_oversize_nonzero_writes :
    (List.replicate 148 97).length = ndefMaxStringLength + 1 ∧
    ¬ (writeNDEFTextWrites (List.replicate 148 97)).length = 0 := by
  decide

/-- C5 (amended): for every string longer than the 147-character maximum,
`writeNDEFText` performs none of the NDEF-record page writes, but the card is
not left unmutated: `formatAsNdef` has already issued its 36 page writes
(pages 0x04..0x27) before the length check runs. -/
theorem writeNDEFText_oversize_only_format_writes (s : List Nat)
    (h : s.length > ndefMaxStringLength) :
    writeNDEFTextWrites s = formatWrites ∧ formatWrites.length = 36 := by
  constructor
  · simp [writeNDEFTextWrites, h]
  · decide

/-- C5 witness: the oversize theorem instantiated at a 148-character string. -/
theorem writeNDEFText_oversize_only_format_writes_witness :
    (List.replicate 148 0).length > ndefMaxStringLength ∧
    (writeNDEFTextWrites (List.replicate 148 0) = formatWrites ∧
      formatWrites.length = 36) :=
  ⟨by decide, writeNDEFText_oversize_only_format_writes (List.replicate 148 0) (by decide)⟩

/- ### C6: the illegal-address guard of write4Bytes does not refuse the write -/

/-- C6: evaluating `write4Bytes` at address 0x29, one past the writable
ceiling 0x28, still issues the full InDataExchange 0xA2 write frame to the
device; the guard only prints a diagnostic and the claimed refusal never
happens (the `Aborting!` message is emitted but nothing aborts). -/
theorem write4Bytes_issues_frame_beyond_ceiling :
    0x29 > 0x28 ∧
    write4BytesIssued 1 [0x01, 0x02, 0x03, 0x04] 0x29 =
      [[0x00, 0x00, 0xFF, 0x09, 0xF7, 0xD4, 0x40, 0x01, 0xA2, 0x29,
        0x01, 0x02, 0x03, 0x04, 0x16, 0x00]] := by
  decide

/- ### C10: getNFCID string shape -/

/-- C10 counterexample: a successful discovery whose UID starts with the byte
16 yields a 9-character NFC id - `decToHex 16` is the three-character string
"010" because of the `decNr < 17` padding bound - so the result is not always
8 characters long. -/
theorem getNFCID_not_always_8_chars :
    sentinelFound [1, 0, 0, 0, 0, 0, 0, 0, 1, 0, 0, 0, 0, 0, 16, 0, 0, 0] = true ∧
    ¬ (getNFCID resetState
        [1, 0, 0, 0, 0, 0, 0, 0, 1, 0, 0, 0, 0, 0, 16, 0, 0, 0]).length = 8 := by
  decide

/-- C10 (amended): when no target is found `getNFCID` returns the empty
string; on a successful discovery with byte-valued UID entries its length is
8 plus one extra character for every UID byte equal to 16 (every byte other
than 16 contributes exactly two hex digits, the byte 16 contributes "010"). -/
theorem getNFCID_length_characterization (prev : TargetState) (resp : List Nat)
    (hb : ∀ k, k < 4 → resp.getD (14 + k) 0 < 256) :
    (sentinelFound resp = false → getNFCID prev resp = "") ∧
    (sentinelFound resp = true →
      (getNFCID prev resp).length =
        8 + List.countP (fun b => b == 16)
          [resp.getD 14 0, resp.getD 15 0, resp.getD 16 0, resp.getD 17 0]) := by
  constructor
  · intro h
    simp [getNFCID, findPassiveTarget, findPassiveTargetPre, resetState, h]
  · intro h
    have hlen : ∀ b, b < 256 → (decToHex b).length = if b = 16 then 3 else 2 := by
      decide
    have h14 := hb 0 (by omega)
    have h15 := hb 1 (by omega)
    have h16 := hb 2 (by omega)
    have h17 := hb 3 (by omega)
    norm_num at h14 h15 h16 h17
    simp only [getNFCID, findPassiveTarget, h, if_true, List.map_cons, List.map_nil,
      List.foldl_cons, List.foldl_nil]
    norm_num
    rw [hlen _ h14, hlen _ h15, hlen _ h16, hlen _ h17]
    simp only [List.countP_cons, List.countP_nil, beq_iff_eq]
    by_cases e1 : resp[14]?.getD 0 = 16 <;> by_cases e2 : resp[15]?.getD 0 = 16 <;>
      by_cases e3 : resp[16]?.getD 0 = 16 <;> by_cases e4 : resp[17]?.getD 0 = 16 <;>
      simp [e1, e2, e3, e4]

/-- C10 witness: a successful discovery with UID bytes 255, 16, 1, 2 yields a
9-character id. -/
theorem getNFCID_length_characterization_witness :
    ((∀ k, k < 4 →
        ([1, 0, 0, 0, 0, 0, 0, 0, 1, 0, 0, 0, 0, 0, 255, 16, 1, 2] : List Nat).getD
          (14 + k) 0 < 256) ∧
      sentinelFound [1, 0, 0, 0, 0, 0, 0, 0, 1, 0, 0, 0, 0, 0, 255, 16, 1, 2] = true) ∧
    (getNFCID resetState
      [1, 0, 0, 0, 0, 0, 0, 0, 1, 0, 0, 0, 0, 0, 255, 16, 1, 2]).length = 9 := by
  refine ⟨⟨by decide, by decide⟩, ?_⟩
  have h := (getNFCID_length_characterization resetState
    [1, 0, 0, 0, 0, 0, 0, 0, 1, 0, 0, 0, 0, 0, 255, 16, 1, 2] (by decide)).2 (by decide)
  simpa using h

/- ### C7: write addresses of the variant A public operations -/

theorem dataBlocksGet_cases (i : Nat) : dataBlocksGet i = 0 ∨ dataBlocksGet i ∈ dataBlocks := by
  by_cases hi : i < dataBlocks.length
  · right
    rw [dataBlocksGet, List.getD_eq_getElem _ _ hi]
    exact List.getElem_mem hi
  · left
    exact List.getD_eq_default _ _ (Nat.le_of_not_lt hi)

theorem dataBlocksGet_not_reserved (i : Nat) : dataBlocksGet i % 4 ≠ 3 := by
  rcases dataBlocksGet_cases i with h | h
  · simp [h]
  · have hall : ∀ x ∈ dataBlocks, x % 4 ≠ 3 := by decide
    exact hall _ h

theorem writeAddrsOf_write16 (tid : Nat) (uid data : List Nat) (addr : Nat) :
    writeAddrsOf (write16BytesCmds tid uid data addr) = [addr] := rfl

theorem writeAddrsOf_read16 (tid : Nat) (uid : List Nat) (addr : Nat) :
    writeAddrsOf (read16BytesCmds tid uid addr) = [] := rfl

theorem writeAddrsOf_append (c1 c2 : List DExchange) :
    writeAddrsOf (c1 ++ c2) = writeAddrsOf c1 ++ writeAddrsOf c2 := by
  simp [writeAddrsOf, List.filter_append]

theorem writeAddrsOf_write_flatMap (tid : Nat) (uid : List Nat)
    (ws : List (Nat × List Nat)) :
    writeAddrsOf (ws.flatMap (fun w => write16BytesCmds tid uid w.2 w.1)) =
      ws.map (fun w => w.1) := by
  induction ws with
  | nil => rfl
  | cons w t ih =>
    rw [List.flatMap_cons, writeAddrsOf_append, writeAddrsOf_write16, ih]
    rfl

theorem writeAddrsOf_read_flatMap (tid : Nat) (uid : List Nat) (f : Nat → Nat)
    (l : List Nat) :
    writeAddrsOf (l.flatMap (fun j => read16BytesCmds tid uid (f j))) = [] := by
  induction l with
  | nil => rfl
  | cons a t ih =>
    rw [List.flatMap_cons, writeAddrsOf_append, writeAddrsOf_read16, ih]
    rfl

/-- C7 (amended): every write command issued by `writeText` targets the header
address 0x04, an element of the `dataBlocks` list, or the address byte 0 that
an out-of-range `dataBlocks` access degrades to on the wire; none of these is
a reserved address (`a mod 4 = 3`).  `readText` and `getNFCID` issue no write
command at all. -/
theorem variantA_write_addresses_safe (tid : Nat) (uid msg : List Nat)
    (card : Nat → List Nat) :
    (∀ a ∈ writeAddrsOf (writeTextCmds tid uid msg),
      a % 4 ≠ 3 ∧ (a = 0x04 ∨ a ∈ dataBlocks ∨ a = 0)) ∧
    writeAddrsOf (readTextCmds tid uid card) = [] ∧
    writeAddrsOf getNFCIDCmds = [] := by
  refine ⟨?_, ?_, rfl⟩
  · intro a ha
    rw [writeTextCmds, writeAddrsOf_write_flatMap, writeTextWrites] at ha
    simp only [List.map_cons, List.map_map, List.mem_cons, List.mem_map,
      Function.comp] at ha
    rcases ha with rfl | ⟨i, _, rfl⟩
    · exact ⟨by decide, Or.inl rfl⟩
    · refine ⟨dataBlocksGet_not_reserved i, ?_⟩
      rcases dataBlocksGet_cases i with h | h
      · exact Or.inr (Or.inr h)
      · exact Or.inr (Or.inl h)
  · rw [readTextCmds, writeAddrsOf_append, writeAddrsOf_read16,
      writeAddrsOf_read_flatMap]
    rfl

/-- C7 counterexample: a 209-character message makes `writeText` loop over 15
blocks while `dataBlocks` has only 14 entries; the resulting write command
carries address byte 0, which is neither the header address 0x04 nor an
element of the declared block list, so writes do not go only to those
addresses. -/
theorem writeText_write_address_outside_list :
    0 ∈ writeAddrsOf (writeTextCmds 1 [0, 0, 0, 0] (List.replicate 209 97)) ∧
    ¬ ((0 : Nat) = 0x04 ∨ (0 : Nat) ∈ dataBlocks) := by
  decide

/- ### C4: variant A text round trip -/

theorem flatten_chunks (f : Nat → Nat) (K : Nat) :
    ((List.range K).map (fun j => (List.range 16).map (fun i => f (16 * j + i)))).flatten =
      (List.range (16 * K)).map f := by
  induction K with
  | zero => rfl
  | succ M ih =>
    have hsplit : List.range (M + 1) = List.range M ++ [M] := by
      rw [List.range_add M 1]
      rfl
    rw [hsplit, List.map_append, List.flatten_append, ih]
    have h16 : 16 * (M + 1) = 16 * M + 16 := by ring
    rw [h16, List.range_add (16 * M) 16, List.map_append]
    simp [List.map_map, Function.comp]

theorem assignFoldl_no_match (ws : List (Nat × List Nat)) (a : Nat) (v : List Nat)
    (h : ∀ w ∈ ws, w.1 ≠ a) :
    ws.foldl (fun acc w => if w.1 = a then w.2 else acc) v = v := by
  induction ws generalizing v with
  | nil => rfl
  | cons w t ih =>
    rw [List.foldl_cons, if_neg (h w (by simp))]
    exact ih v (fun x hx => h x (by simp [hx]))

theorem assignFoldl_range (g : Nat → Nat × List Nat) (a : Nat) (v : List Nat) (j : Nat)
    (hja : (g j).1 = a) :
    ∀ K, j < K → (∀ i, i < K → (g i).1 = a → i = j) →
      ((List.range K).map g).foldl (fun acc w => if w.1 = a then w.2 else acc) v =
        (g j).2 := by
  intro K
  induction K with
  | zero => omega
  | succ M ih =>
    intro hj huniq
    rw [List.range_succ, List.map_append, List.foldl_append]
    by_cases hM : j = M
    · subst hM
      simp [hja]
    · have hgM : (g M).1 ≠ a := fun hc => hM (huniq M (by omega) hc).symm
      simp only [List.map_cons, List.map_nil, List.foldl_cons, List.foldl_nil,
        if_neg hgM]
      exact ih (by omega) (fun i hi hia => huniq i (by omega) hia)

theorem truncatedMessage_eq_take (msg : List Nat) :
    truncatedMessage msg = msg.take 224 := by
  rw [truncatedMessage]
  split
  · rfl
  · rename_i hle
    rw [List.take_of_length_le (by omega)]

theorem truncatedMessage_length (msg : List Nat) :
    (truncatedMessage msg).length ≤ 224 := by
  rw [truncatedMessage_eq_take]
  simp

theorem dataBlocksGet_ne_four (i : Nat) : dataBlocksGet i ≠ 4 := by
  rcases dataBlocksGet_cases i with h | h
  · simp [h]
  · have hall : ∀ x ∈ dataBlocks, x ≠ 4 := by decide
    exact hall _ h

theorem dataBlocksGet_inj :
    ∀ i, i < 15 → ∀ j, j < 15 → dataBlocksGet i = dataBlocksGet j → i = j := by
  decide

theorem cardAfterWrites_writeText_header (msg : List Nat) (c0 : Nat → List Nat) :
    cardAfterWrites (writeTextWrites msg) c0 0x04 =
      headerBlock (truncatedMessage msg).length := by
  show (writeTextWrites msg).foldl
      (fun acc w => if w.1 = 0x04 then w.2 else acc) (c0 0x04) = _
  rw [writeTextWrites, List.foldl_cons, if_pos rfl]
  exact assignFoldl_no_match _ _ _ (fun w hw => by
    rcases List.mem_map.1 hw with ⟨i, _, rfl⟩
    exact dataBlocksGet_ne_four i)

theorem cardAfterWrites_writeText_block (msg : List Nat) (c0 : Nat → List Nat) (j : Nat)
    (hj : j < blocksNeededCount (truncatedMessage msg).length) :
    cardAfterWrites (writeTextWrites msg) c0 (dataBlocksGet j) =
      blockData (truncatedMessage msg) j := by
  have hK : blocksNeededCount (truncatedMessage msg).length ≤ 15 := by
    have hlen := truncatedMessage_length msg
    rw [blocksNeededCount]
    omega
  show (writeTextWrites msg).foldl
      (fun acc w => if w.1 = dataBlocksGet j then w.2 else acc) (c0 (dataBlocksGet j)) = _
  rw [writeTextWrites, List.foldl_cons,
    if_neg (fun hc => dataBlocksGet_ne_four j hc.symm)]
  exact assignFoldl_range
    (fun i => (dataBlocksGet i, blockData (truncatedMessage msg) i))
    (dataBlocksGet j) _ j rfl _ hj
    (fun i hi hia => dataBlocksGet_inj i (by omega) j (by omega) hia)

theorem respStaged_cons (d : List Nat) :
    respStaged d = 1 :: 0 :: 0 :: 255 :: (d.length + 3) ::
      ((256 - (d.length + 3) % 256) % 256) :: 0xD5 :: 0x41 :: 0 ::
      (d ++ [(256 - (0xD5 + 0x41 + 0 + d.sum) % 256) % 256, 0]) := by
  simp [respStaged, deviceStaged]

theorem respStaged_readFrame (d : List Nat) (h : d.length = 16) :
    readFrame (respStaged d) = respStaged d := by
  have hlen : (respStaged d).length = 27 := by
    rw [respStaged_cons]
    simp [h]
  rw [readFrame, map_range_getD _ 64 (by rw [hlen]; omega)]
  have hget4 : ((respStaged d) ++ List.replicate (64 - (respStaged d).length) 0).getD 4 0
      = 19 := by
    rw [List.getD_append _ _ _ _ (by rw [hlen]; omega), respStaged_cons]
    simp [List.getD_cons_succ, List.getD_cons_zero, h]
  rw [hget4, show (19 : Nat) + 8 = 27 from rfl, ← hlen, List.take_left]

theorem respStaged_getD9 (d : List Nat) (h : 0 < d.length) :
    (respStaged d).getD 9 0 = d.getD 0 0 := by
  rw [respStaged_cons]
  simp only [List.getD_cons_succ]
  rw [List.getD_append _ _ _ _ h]

theorem respStaged_slice (d : List Nat) (h : d.length = 16) :
    ((respStaged d).drop 9).take 16 = d := by
  rw [respStaged_cons]
  simp only [List.drop_succ_cons, List.drop_zero]
  exact List.take_left' h

/-- C4 (amended): with a faithfully-returning card, writing a message with
`writeText` and reading it back with `readText` yields the message padded with
zero bytes to the next multiple of 16 of its (truncated) length: the result
equals the message exactly when its length is a multiple of 16 and at most
224, and equals the 224-character truncated prefix for longer messages.  The
padding appears because the float computation `blocksNeeded = length/16 + 1`
makes the final partial block read back 16 characters instead of the
remainder. -/
theorem writeText_readText_roundtrip (msg : List Nat) (hb : ∀ c ∈ msg, c < 256)
    (card0 : Nat → List Nat) :
    readTextResult (cardAfterWrites (writeTextWrites msg) card0) =
      padTo16 (msg.take 224) ∧
    (msg.length ≤ 224 → msg.length % 16 = 0 →
      readTextResult (cardAfterWrites (writeTextWrites msg) card0) = msg) ∧
    (msg.length > 224 →
      readTextResult (cardAfterWrites (writeTextWrites msg) card0) = msg.take 224) := by
  have hmt : truncatedMessage msg = msg.take 224 := truncatedMessage_eq_take msg
  have hmb : ∀ c ∈ truncatedMessage msg, c < 256 := fun c hc =>
    hb c (List.mem_of_mem_take (hmt ▸ hc))
  have hL : (truncatedMessage msg).length ≤ 224 := truncatedMessage_length msg
  have hheader : cardAfterWrites (writeTextWrites msg) card0 0x04 =
      headerBlock (truncatedMessage msg).length :=
    cardAfterWrites_writeText_header msg card0
  have hhlen : (cardAfterWrites (writeTextWrites msg) card0 0x04).length = 16 := by
    rw [hheader, headerBlock]
    simp
  have hmsglen :
      (read16BytesFrame (cardAfterWrites (writeTextWrites msg) card0) 0x04).getD 9 0 =
        (truncatedMessage msg).length := by
    rw [read16BytesFrame, respStaged_readFrame _ hhlen,
      respStaged_getD9 _ (by omega), hheader, headerBlock, List.getD_cons_zero]
    omega
  have hblocklen : ∀ j, j < blocksNeededCount (truncatedMessage msg).length →
      (cardAfterWrites (writeTextWrites msg) card0 (dataBlocksGet j)).length = 16 := by
    intro j hj
    rw [cardAfterWrites_writeText_block msg card0 j hj, blockData]
    simp
  have hmain : readTextResult (cardAfterWrites (writeTextWrites msg) card0) =
      padTo16 (truncatedMessage msg) := by
    rw [readTextResult, hmsglen]
    have hchunk : ∀ j ∈ List.range (blocksNeededCount (truncatedMessage msg).length),
        (List.range (blockLen (truncatedMessage msg).length j)).map
          (fun i =>
            (((read16BytesFrame (cardAfterWrites (writeTextWrites msg) card0)
                (dataBlocksGet j)).drop 9).take 16).getD i 0) =
        (List.range (blockLen (truncatedMessage msg).length j)).map
          (fun i => (truncatedMessage msg).getD (16 * j + i) 0) := by
      intro j hjr
      have hj : j < blocksNeededCount (truncatedMessage msg).length :=
        List.mem_range.1 hjr
      rw [read16BytesFrame, respStaged_readFrame _ (hblocklen j hj),
        respStaged_slice _ (hblocklen j hj),
        cardAfterWrites_writeText_block msg card0 j hj]
      by_cases hbl : 16 * j < (truncatedMessage msg).length
      · apply List.map_congr_left
        intro i hi
        have hi16 : i < 16 := by
          have := List.mem_range.1 hi
          rw [blockLen, if_pos hbl] at this
          omega
        have hcb : charBytesAt (truncatedMessage msg) (16 * j + i) < 256 := by
          rw [charBytesAt]
          by_cases hk : 16 * j + i < (truncatedMessage msg).length
          · rw [List.getD_eq_getElem _ _ hk]
            exact hmb _ (List.getElem_mem hk)
          · rw [List.getD_eq_default _ _ (Nat.le_of_not_lt hk)]
            omega
        rw [blockData, List.getD_eq_getElem _ _ (by simpa using hi16)]
        simp only [List.getElem_map, List.getElem_range]
        rw [blockLen, if_pos hbl, if_pos hi16]
        exact Nat.mod_eq_of_lt hcb
      · rw [blockLen, if_neg hbl]
        rfl
    rw [List.map_congr_left hchunk]
    have hKsucc : blocksNeededCount (truncatedMessage msg).length =
        ((truncatedMessage msg).length + 15) / 16 + 1 := by
      rw [blocksNeededCount]
      omega
    rw [hKsucc]
    have hsplit : List.range (((truncatedMessage msg).length + 15) / 16 + 1) =
        List.range (((truncatedMessage msg).length + 15) / 16) ++
          [((truncatedMessage msg).length + 15) / 16] := by
      rw [List.range_add (((truncatedMessage msg).length + 15) / 16) 1]
      rfl
    rw [hsplit, List.map_append, List.flatten_append]
    simp only [List.map_cons, List.map_nil, List.flatten_cons, List.flatten_nil]
    have hlast : blockLen (truncatedMessage msg).length
        (((truncatedMessage msg).length + 15) / 16) = 0 := by
      rw [blockLen, if_neg (by omega)]
    rw [hlast]
    simp only [List.range_zero, List.map_nil, List.append_nil]
    have hfull : ∀ j ∈ List.range (((truncatedMessage msg).length + 15) / 16),
        (List.range (blockLen (truncatedMessage msg).length j)).map
          (fun i => (truncatedMessage msg).getD (16 * j + i) 0) =
        (List.range 16).map (fun i => (truncatedMessage msg).getD (16 * j + i) 0) := by
      intro j hjr
      have hjF : j < ((truncatedMessage msg).length + 15) / 16 := List.mem_range.1 hjr
      rw [blockLen, if_pos (by omega)]
    rw [List.map_congr_left hfull,
      flatten_chunks (fun k => (truncatedMessage msg).getD k 0)
        (((truncatedMessage msg).length + 15) / 16),
      map_range_getD (truncatedMessage msg) _ (by omega)]
    rw [padTo16]
    have hcount : 16 * (((truncatedMessage msg).length + 15) / 16) -
        (truncatedMessage msg).length =
        (16 - (truncatedMessage msg).length % 16) % 16 := by
      omega
    rw [hcount]
  refine ⟨by rw [hmain, hmt], ?_, ?_⟩
  · intro h1 h2
    rw [hmain, hmt, List.take_of_length_le h1, padTo16]
    have hz : (16 - msg.length % 16) % 16 = 0 := by omega
    rw [hz]
    simp
  · intro h1
    rw [hmain, hmt, padTo16]
    have hz : (16 - (msg.take 224).length % 16) % 16 = 0 := by
      simp
      omega
    rw [hz]
    simp

/-- C4 witness: a 32-character message (a multiple of the block size) written
onto a blank card reads back exactly. -/
theorem writeText_readText_roundtrip_witness :
    ((∀ c ∈ List.replicate 32 65, c < 256) ∧
      (List.replicate 32 65 : List Nat).length ≤ 224 ∧
      (List.replicate 32 65 : List Nat).length % 16 = 0) ∧
    readTextResult
      (cardAfterWrites (writeTextWrites (List.replicate 32 65))
        (fun _ => List.replicate 16 0)) = List.replicate 32 65 :=
  ⟨⟨by decide, by decide, by decide⟩,
    (writeText_readText_roundtrip (List.replicate 32 65) (by decide)
      (fun _ => List.replicate 16 0)).2.1 (by decide) (by decide)⟩

/-- C4 counterexample: the one-character message "a" (code 97) is far below
the `16 * dataBlocks.length = 224` limit, yet writing it and reading it back
yields 16 characters (the message plus 15 zero bytes), not the message
itself - so the claimed exact round trip fails. -/
theorem writeText_readText_not_exact_short :
    ([97] : List Nat).length ≤ 16 * dataBlocks.length ∧
    ¬ readTextResult
        (cardAfterWrites (writeTextWrites [97]) (fun _ => List.replicate 16 0)) =
      [97] := by
  decide
